import Mathlib

/-!
Verification of the just-ride workout engine, GATT codec, telemetry recorder,
storage mutations and FIT export against their natural-language specification.

The TypeScript source is shallowly embedded: JavaScript numbers that hold
finite real values are modelled as rationals (ℚ), integer-valued quantities as
ℤ or ℕ, byte buffers as lists of `Fin 256`, nullable values as `Option`, and
throwing code as `Except String`.  `Math.round` is round-half-up, modelled by
`jsRound`.
-/

namespace JustRide

/-- JavaScript `Math.round`: round half toward positive infinity. -/
def jsRound (q : ℚ) : ℤ := Rat.floor (q + 1/2)

/-! ## Workout segments (src/workouts catalog, consumed by useWorkoutExecution) -/

inductive SegmentKind where
  | steady
  | ramp
  | intervalOn
  | intervalOff
deriving DecidableEq, Repr

structure WorkoutSegment where
  id : String
  kind : SegmentKind
  durationSeconds : ℕ
  ftpLow : ℚ
  ftpHigh : ℚ
  startSecond : ℕ
deriving DecidableEq, Repr

structure WorkoutDefinition where
  segments : List WorkoutSegment
  totalDurationSeconds : ℕ
deriving DecidableEq, Repr

/-- Source `getSegmentTargetWatts` (useWorkoutExecution.ts lines 687-707).
`Number.isFinite ftp` is always true in the rational model, so the `safeFtp`
guard reduces to the positivity test.  `secondsIntoSegment` is a natural
number, so the lower clamp bound 0 is automatic and
`Math.max(0, durationSeconds - 1)` is truncated subtraction. -/
def getSegmentTargetWatts (segment : WorkoutSegment) (secondsIntoSegment : ℕ)
    (ftp : ℚ) : ℤ :=
  let safeFtp : ℚ := if 0 < ftp then ftp else 1
  let isRamp := segment.kind = SegmentKind.ramp ∧ segment.ftpLow ≠ segment.ftpHigh
  if isRamp then
    let boundedSeconds : ℕ := min secondsIntoSegment (segment.durationSeconds - 1)
    let denominator : ℕ := max 1 (segment.durationSeconds - 1)
    let progress : ℚ := (boundedSeconds : ℚ) / (denominator : ℚ)
    let ftpRatio : ℚ := segment.ftpLow + (segment.ftpHigh - segment.ftpLow) * progress
    jsRound (ftpRatio * safeFtp)
  else
    jsRound (segment.ftpLow * safeFtp)

/-- Source `getDispatchSecond` (useWorkoutExecution.ts lines 656-685).
`rampInterval = Math.max(1, Math.round(rampUpdateIntervalSeconds))`, kept as a
natural number since the max-with-1 makes it positive. -/
def getDispatchSecond (segment : WorkoutSegment) (secondsIntoSegment : ℕ)
    (rampUpdateIntervalSeconds : ℚ) : Option ℕ :=
  if segment.durationSeconds = 0 then
    none
  else if secondsIntoSegment = 0 then
    some 0
  else
    let isRamp := segment.kind = SegmentKind.ramp ∧ segment.ftpLow ≠ segment.ftpHigh
    if ¬isRamp then
      some 0
    else
      let rampInterval : ℕ := (max 1 (jsRound rampUpdateIntervalSeconds)).toNat
      let segmentEndSecond : ℕ := segment.durationSeconds - 1
      if secondsIntoSegment ≥ segmentEndSecond then
        some segmentEndSecond
      else
        some (secondsIntoSegment / rampInterval * rampInterval)

/-- Source `getSegmentIndexForElapsed` (useWorkoutExecution.ts lines 636-654):
linear scan for the segment whose `[startSecond, startSecond+duration)`
interval contains the elapsed second; `-1` when none does.  `elapsedSeconds`
is a natural number, so `Math.max(0, elapsedSeconds)` is the identity. -/
def segmentScan (segments : List WorkoutSegment) (elapsed : ℕ) (index : ℤ) : ℤ :=
  match segments with
  | [] => -1
  | segment :: rest =>
      if segment.startSecond ≤ elapsed ∧
          elapsed < segment.startSecond + segment.durationSeconds then
        index
      else
        segmentScan rest elapsed (index + 1)

def getSegmentIndexForElapsed (workout : WorkoutDefinition) (elapsed : ℕ) : ℤ :=
  if workout.segments.isEmpty then -1 else segmentScan workout.segments elapsed 0

/-! ## Workout execution engine (useWorkoutExecution.ts lines 393-634)

The hook is a React component: every render takes a state snapshot, and all
`useEffect` bodies of one commit read that same snapshot; their `setState`
calls only become visible at the next render, while `useRef` writes are
immediate.  `commitEffects` below runs the three state-relevant effect bodies
(completion, lines 507-521; ERG dispatch, lines 523-572; sampling, lines
574-611) against one snapshot and merges their updates, exactly as one React
passive-effect flush does.  `tick` is the 1-second interval callback
(lines 488-505).  Live telemetry and the write outcome are held as parameters;
`dispatchedTargets` is an observer recording each call to `setErgTargetValue`
(the engine itself does not store it). -/

structure EngineSample where
  elapsedSeconds : ℕ
  segmentId : Option String
  segmentIndex : ℤ
  targetWatts : Option ℤ
  livePowerWatts : Option ℚ
  cadenceRpm : Option ℚ
  heartRateBpm : Option ℚ
deriving DecidableEq, Repr

structure EngineState where
  isRunning : Bool
  isPaused : Bool
  isCompleted : Bool
  elapsedSeconds : ℕ
  currentTargetWatts : Option ℤ
  lastSentTarget : Option ℤ
  lastSampleElapsed : ℤ
  samples : List EngineSample
  dispatchedTargets : List ℤ
deriving DecidableEq, Repr

/-- State established by `start` (lines 430-440) once the started workout has
rendered: running, elapsed 0, cleared guards (`lastSentTargetRef = null`,
`lastSampleElapsedRef = -1`) and an empty sample list. -/
def startState : EngineState :=
  { isRunning := true
    isPaused := false
    isCompleted := false
    elapsedSeconds := 0
    currentTargetWatts := none
    lastSentTarget := none
    lastSampleElapsed := -1
    samples := []
    dispatchedTargets := [] }

/-- The `setInterval` callback (lines 493-500): while the interval effect is
active (running, not paused, not completed) elapsed seconds advance by one,
clamped at the total duration. -/
def tick (workout : WorkoutDefinition) (s : EngineState) : EngineState :=
  if s.isRunning ∧ ¬s.isPaused ∧ ¬s.isCompleted then
    { s with
        elapsedSeconds :=
          if s.elapsedSeconds ≥ workout.totalDurationSeconds then s.elapsedSeconds
          else s.elapsedSeconds + 1 }
  else
    s

/-- A dummy segment for the (unreachable) out-of-range list access; the source
indexes `segments[activeSegmentIndex]` only when the index is ≥ 0, which the
linear scan guarantees to be in range. -/
def placeholderSegment : WorkoutSegment :=
  { id := "", kind := SegmentKind.steady, durationSeconds := 0,
    ftpLow := 0, ftpHigh := 0, startSecond := 0 }

/-- One React passive-effect flush with the workout active: the completion,
dispatch and sampling effect bodies all read the snapshot `s`; their state
updates are merged (for `currentTargetWatts`, written by both the completion
and the dispatch effect, the dispatch effect's `setCurrentTargetWatts` is the
later call and wins when both fire).  `writeOk` is the resolution of the
`setErgTargetValue` promise: `lastSentTargetRef` is assigned only when it
resolves `true` (lines 556-561). -/
def commitEffects (workout : WorkoutDefinition) (ftp : ℚ)
    (rampUpdateIntervalSeconds : ℚ)
    (livePowerWatts cadenceRpm heartRateBpm : Option ℚ) (writeOk : Bool)
    (s : EngineState) : EngineState :=
  -- completion effect (lines 507-521)
  let completionFires :=
    ¬s.isCompleted ∧ s.elapsedSeconds ≥ workout.totalDurationSeconds
  -- dispatch effect (lines 523-572)
  let segIdx := getSegmentIndexForElapsed workout s.elapsedSeconds
  let dispatchGuard := s.isRunning ∧ ¬s.isPaused ∧ ¬s.isCompleted ∧ 0 ≤ segIdx
  let segment := workout.segments.getD segIdx.toNat placeholderSegment
  let secondsIntoSegment := s.elapsedSeconds - segment.startSecond
  let dispatchSecond :=
    getDispatchSecond segment secondsIntoSegment rampUpdateIntervalSeconds
  let nextTarget :=
    getSegmentTargetWatts segment (dispatchSecond.getD 0) ftp
  let dispatchComputed := dispatchGuard ∧ dispatchSecond.isSome
  let writeAttempted := dispatchComputed ∧ s.lastSentTarget ≠ some nextTarget
  -- sampling effect (lines 574-611); `activeSegment`/`activeSegmentIndex` and
  -- `currentTargetWatts` come from the same snapshot
  let samplingFires :=
    s.isRunning ∧ ¬s.isPaused ∧ ¬s.isCompleted ∧
      (s.elapsedSeconds : ℤ) ≠ s.lastSampleElapsed
  let sample : EngineSample :=
    { elapsedSeconds := s.elapsedSeconds
      segmentId :=
        if 0 ≤ segIdx then some segment.id else none
      segmentIndex := segIdx
      targetWatts := s.currentTargetWatts
      livePowerWatts := livePowerWatts
      cadenceRpm := cadenceRpm
      heartRateBpm := heartRateBpm }
  { isRunning := if completionFires then false else s.isRunning
    isPaused := if completionFires then false else s.isPaused
    isCompleted := if completionFires then true else s.isCompleted
    elapsedSeconds :=
      if completionFires then workout.totalDurationSeconds else s.elapsedSeconds
    currentTargetWatts :=
      if dispatchComputed then some nextTarget
      else if completionFires then none
      else s.currentTargetWatts
    lastSentTarget :=
      if writeAttempted ∧ writeOk then some nextTarget else s.lastSentTarget
    lastSampleElapsed :=
      if samplingFires then (s.elapsedSeconds : ℤ) else s.lastSampleElapsed
    samples := if samplingFires then s.samples ++ [sample] else s.samples
    dispatchedTargets :=
      if writeAttempted then s.dispatchedTargets ++ [nextTarget]
      else s.dispatchedTargets }

/-- A never-paused run: the commit right after `start`, then `n` seconds each
consisting of one interval tick followed by one effect flush. -/
def engineRun (workout : WorkoutDefinition) (ftp : ℚ)
    (rampUpdateIntervalSeconds : ℚ)
    (livePowerWatts cadenceRpm heartRateBpm : Option ℚ) (writeOk : Bool) :
    ℕ → EngineState
  | 0 =>
      commitEffects workout ftp rampUpdateIntervalSeconds livePowerWatts
        cadenceRpm heartRateBpm writeOk startState
  | n + 1 =>
      commitEffects workout ftp rampUpdateIntervalSeconds livePowerWatts
        cadenceRpm heartRateBpm writeOk
        (tick workout
          (engineRun workout ftp rampUpdateIntervalSeconds livePowerWatts
            cadenceRpm heartRateBpm writeOk n))

/-! ## GATT codec (useTrainerBluetooth) -/

/-- Little-endian unsigned 16-bit read of two bytes. -/
def uint16Of (lo hi : Fin 256) : ℕ := lo.val + 256 * hi.val

/-- Reinterpret an unsigned 16-bit value as a signed 16-bit integer
(`DataView.getInt16`). -/
def toInt16 (u : ℕ) : ℤ := if u < 32768 then (u : ℤ) else (u : ℤ) - 65536

/-- Byte at index `i`, defaulting to 0; callers check the length first, as the
source does via `byteLength`. -/
def byteAt (buf : List (Fin 256)) (i : ℕ) : ℕ := (buf.getD i 0).val

/-- The cursor walk of `parseIndoorBikeData` (useTrainerBluetooth, lines
89-108): `offset` starts at 2 and grows by the width of each optional field
whose flag bit selects it (`flags & 0x01` clear adds the implied speed field,
`0x02/0x04/0x08/0x20` add 2 bytes each, `0x10` adds 3). -/
def ibdOffset (flags : ℕ) : ℕ :=
  let offset := 2
  let offset := if flags % 2 = 0 then offset + 2 else offset
  let offset := if flags / 2 % 2 = 1 then offset + 2 else offset
  let offset := if flags / 4 % 2 = 1 then offset + 2 else offset
  let offset := if flags / 8 % 2 = 1 then offset + 2 else offset
  let offset := if flags / 16 % 2 = 1 then offset + 3 else offset
  if flags / 32 % 2 = 1 then offset + 2 else offset

/-- Source `parseIndoorBikeData` (useTrainerBluetooth, lines 83-118): reads the
16-bit flags at offset 0, advances the cursor over the optional fields selected
by flag bits 0-5, then reads a signed 16-bit power value when bit 6 is set. -/
def parseIndoorBikeData (buf : List (Fin 256)) : Option ℤ :=
  if buf.length < 2 then none else
  let flags := byteAt buf 0 + 256 * byteAt buf 1
  let offset := ibdOffset flags
  if flags / 64 % 2 = 1 then
    if buf.length < offset + 2 then none
    else some (toInt16 (byteAt buf offset + 256 * byteAt buf (offset + 1)))
  else
    none

/-- Source `parseCyclingPowerMeasurement` (lines 75-81). -/
def parseCyclingPowerMeasurement (buf : List (Fin 256)) : Option ℤ :=
  if buf.length < 4 then none
  else some (toInt16 (byteAt buf 2 + 256 * byteAt buf 3))

/-- Source `encodeSetTargetPower` (lines 139-146): opcode 0x05 followed by the
target watts as a signed little-endian 16-bit value
(`DataView.setInt16` stores the value modulo 2^16). -/
def encodeSetTargetPower (targetWatts : ℤ) : List ℕ :=
  let u : ℕ := (targetWatts % 65536).toNat
  [5, u % 256, u / 256]

/-! ## Telemetry recorder (src/routes/index.tsx lines 627-741)

`flushBufferedSamples` (lines 670-697) drains the recorder's buffer in a
serialized loop; `queueChunkFlush` (lines 699-713) chains every flush onto the
single `flushChain` promise, so flushes for one session execute strictly one
after another.  That serialization is modelled by executing recorder events
(sample pushes from `onSample`, lines 722-740, and queued flushes) as a
sequence.  Appends are modelled as succeeding (the claim's hypothesis); each
performed append is recorded as a `(chunkIndex, samples)` pair. -/

def workoutSampleChunkSize : ℕ := 60

structure RecorderState (α : Type) where
  sessionId : Option ℕ
  nextChunkIndex : ℕ
  sampleBuffer : List α
deriving DecidableEq, Repr

/-- The `while` loop body of `flushBufferedSamples`: as long as the buffer has
a full chunk (or, under `forceFlush`, is non-empty), splice off the slice,
take the next chunk index, bump the counter, and append. -/
def flushLoop (forceFlush : Bool) (s : RecorderState α) :
    RecorderState α × List (ℕ × List α) :=
  if h : workoutSampleChunkSize ≤ s.sampleBuffer.length ∨
      (forceFlush ∧ 0 < s.sampleBuffer.length) then
    let takeCount :=
      if forceFlush then s.sampleBuffer.length
      else min workoutSampleChunkSize s.sampleBuffer.length
    let chunkSamples := s.sampleBuffer.take takeCount
    let s' : RecorderState α :=
      { s with
          sampleBuffer := s.sampleBuffer.drop takeCount
          nextChunkIndex := s.nextChunkIndex + 1 }
    let (s'', rest) := flushLoop forceFlush s'
    (s'', (s.nextChunkIndex, chunkSamples) :: rest)
  else
    (s, [])
termination_by s.sampleBuffer.length
decreasing_by
  have hpos : 0 < s.sampleBuffer.length := by
    rcases h with h | h
    · have h60 : (0 : ℕ) < workoutSampleChunkSize := by
        norm_num [workoutSampleChunkSize]
      omega
    · exact h.2
  have h60 : workoutSampleChunkSize = 60 := rfl
  simp only [List.length_drop, h60]
  split <;> omega

/-- Source `flushBufferedSamples`: a no-op when no session has been created. -/
def flushBufferedSamples (forceFlush : Bool) (s : RecorderState α) :
    RecorderState α × List (ℕ × List α) :=
  match s.sessionId with
  | none => (s, [])
  | some _ => flushLoop forceFlush s

inductive RecorderEvent (α : Type) where
  | push (sample : α)
  | flush (forceFlush : Bool)
deriving DecidableEq, Repr

def recorderStep (s : RecorderState α) :
    RecorderEvent α → RecorderState α × List (ℕ × List α)
  | RecorderEvent.push sample =>
      ({ s with sampleBuffer := s.sampleBuffer ++ [sample] }, [])
  | RecorderEvent.flush forceFlush => flushBufferedSamples forceFlush s

/-- Run a sequence of recorder events, collecting every chunk append in the
order it was issued. -/
def recorderRun (s : RecorderState α) :
    List (RecorderEvent α) → RecorderState α × List (ℕ × List α)
  | [] => (s, [])
  | ev :: evs =>
      let (s', appended) := recorderStep s ev
      let (s'', rest) := recorderRun s' evs
      (s'', appended ++ rest)

/-- Recorder state at the start of a recording session (lines 627-632, with
the session id filled in by `startWorkoutSession`'s round trip). -/
def initialRecorder (sessionId : ℕ) : RecorderState α :=
  { sessionId := some sessionId, nextChunkIndex := 0, sampleBuffer := [] }

/-! ## Convex storage mutations (convex workouts module)

The document store is a pair of tables; `ctx.db.get` is a lookup by id,
`ctx.db.insert` appends, `ctx.db.patch` replaces fields in place.  The current
wall-clock (`Date.now()`) and the authenticated user subject are passed in as
parameters.  Throwing (`throw new Error`) is `Except.error`. -/

inductive SessionStatus where
  | recording
  | completed
  | ended
deriving DecidableEq, Repr

structure WorkoutSample where
  timestampMs : ℚ
  elapsedSeconds : ℚ
  segmentId : Option String
  segmentIndex : ℚ
  targetWatts : Option ℚ
  powerWatts : Option ℚ
  cadenceRpm : Option ℚ
  heartRateBpm : Option ℚ
deriving DecidableEq, Repr

structure SessionDoc where
  id : ℕ
  userSubject : String
  status : SessionStatus
  sampleCount : ℤ
  startedAt : ℤ
  endedAt : Option ℤ
  elapsedSeconds : Option ℚ
  averagePowerWatts : Option ℤ
  maxPowerWatts : Option ℚ
  averageHeartRateBpm : Option ℤ
  maxHeartRateBpm : Option ℚ
  averageCadenceRpm : Option ℤ
  maxCadenceRpm : Option ℚ
  updatedAt : ℤ
deriving DecidableEq, Repr

structure ChunkDoc where
  userSubject : String
  sessionId : ℕ
  chunkIndex : ℤ
  fromElapsedSeconds : ℚ
  toElapsedSeconds : ℚ
  sampleCount : ℤ
  samples : List WorkoutSample
  createdAt : ℤ
deriving DecidableEq, Repr

structure Db where
  sessions : List SessionDoc
  chunks : List ChunkDoc
deriving DecidableEq, Repr

def Db.getSession (db : Db) (sessionId : ℕ) : Option SessionDoc :=
  db.sessions.find? (fun s => s.id = sessionId)

def Db.patchSession (db : Db) (sessionId : ℕ)
    (f : SessionDoc → SessionDoc) : Db :=
  { db with
      sessions := db.sessions.map (fun s => if s.id = sessionId then f s else s) }

def chunkSizeLimit : ℕ := 120

/-- Source `normalizeTimestamp` (part of the convex workouts module, lines
49-55): non-positive rounded timestamps fall back to `Date.now()`
(non-finiteness cannot arise in the rational model). -/
def normalizeTimestamp (now : ℤ) (value : ℚ) : ℤ :=
  let rounded := jsRound value
  if rounded ≤ 0 then now else rounded

/-- Source `normalizeChunkIndex` (lines 57-63). -/
def normalizeChunkIndex (chunkIndex : ℚ) : Except String ℤ :=
  let rounded := jsRound chunkIndex
  if rounded < 0 then Except.error "Chunk index must be a non-negative integer."
  else Except.ok rounded

/-- Source `normalizeSample` (lines 65-89): rounds and clamps each metric;
null stays null (`Number.isFinite` holds for every rational). -/
def normalizeSample (now : ℤ) (sample : WorkoutSample) : WorkoutSample :=
  { timestampMs := (normalizeTimestamp now sample.timestampMs : ℚ)
    elapsedSeconds := (max 0 (jsRound sample.elapsedSeconds) : ℤ)
    segmentId := sample.segmentId
    segmentIndex := (max 0 (jsRound sample.segmentIndex) : ℤ)
    targetWatts := sample.targetWatts.map (fun w => (max 0 (jsRound w) : ℤ))
    powerWatts := sample.powerWatts.map (fun w => (max 0 (jsRound w) : ℤ))
    cadenceRpm := sample.cadenceRpm.map (fun w => (max 0 (jsRound w) : ℤ))
    heartRateBpm := sample.heartRateBpm.map (fun w => (max 0 (jsRound w) : ℤ)) }

/-- The comparator of the `sort` in `appendWorkoutSampleChunk` (lines 156-161):
ascending `(elapsedSeconds, timestampMs)`. -/
def sampleLE (left right : WorkoutSample) : Bool :=
  left.elapsedSeconds < right.elapsedSeconds ∨
    (left.elapsedSeconds = right.elapsedSeconds ∧
      left.timestampMs ≤ right.timestampMs)

structure AppendResult where
  inserted : Bool
  reason : Option String
deriving DecidableEq, Repr

/-- Source `appendWorkoutSampleChunk` (lines 122-184). -/
def appendWorkoutSampleChunk (now : ℤ) (userSubject : String) (sessionId : ℕ)
    (chunkIndexArg : ℚ) (samplesArg : List WorkoutSample) (db : Db) :
    Except String (AppendResult × Db) :=
  if samplesArg.length = 0 then
    Except.ok ({ inserted := false, reason := some "empty_chunk" }, db)
  else if chunkSizeLimit < samplesArg.length then
    Except.error "Chunk size must be <= 120 samples."
  else
  match normalizeChunkIndex chunkIndexArg with
  | Except.error e => Except.error e
  | Except.ok chunkIndex =>
  match db.getSession sessionId with
  | none => Except.error "Workout session not found."
  | some session =>
      if session.userSubject ≠ userSubject then
        Except.error "Workout session not found."
      else if session.status ≠ SessionStatus.recording then
        Except.ok ({ inserted := false, reason := some "session_not_recording" }, db)
      else if (db.chunks.find? (fun c =>
          c.sessionId = sessionId ∧ c.chunkIndex = chunkIndex)).isSome then
        Except.ok ({ inserted := false, reason := some "duplicate_chunk" }, db)
      else
        let samples :=
          (samplesArg.map (normalizeSample now)).mergeSort sampleLE
        let fromElapsedSeconds := ((samples.head?).map (·.elapsedSeconds)).getD 0
        let toElapsedSeconds :=
          ((samples.getLast?).map (·.elapsedSeconds)).getD fromElapsedSeconds
        let db' : Db :=
          { db with
              chunks := db.chunks ++
                [{ userSubject := userSubject
                   sessionId := sessionId
                   chunkIndex := chunkIndex
                   fromElapsedSeconds := fromElapsedSeconds
                   toElapsedSeconds := toElapsedSeconds
                   sampleCount := samples.length
                   samples := samples
                   createdAt := now }] }
        let db'' := db'.patchSession sessionId (fun s =>
          { s with
              sampleCount := s.sampleCount + samples.length
              updatedAt := now })
        Except.ok ({ inserted := true, reason := none }, db'')

structure FinalizeResult where
  sessionId : ℕ
  status : SessionStatus
  sampleCount : ℤ
deriving DecidableEq, Repr

/-- The running aggregate accumulator of the `for` loops in
`finalizeWorkoutSession` (lines 211-250). -/
structure FinalizeAgg where
  sampleCount : ℤ
  maxElapsedSeconds : ℚ
  powerSum : ℚ
  powerCount : ℤ
  maxPowerWatts : Option ℚ
  heartRateSum : ℚ
  heartRateCount : ℤ
  maxHeartRateBpm : Option ℚ
  cadenceSum : ℚ
  cadenceCount : ℤ
  maxCadenceRpm : Option ℚ
deriving DecidableEq, Repr

def initialAgg : FinalizeAgg :=
  { sampleCount := 0, maxElapsedSeconds := 0,
    powerSum := 0, powerCount := 0, maxPowerWatts := none,
    heartRateSum := 0, heartRateCount := 0, maxHeartRateBpm := none,
    cadenceSum := 0, cadenceCount := 0, maxCadenceRpm := none }

/-- Inner loop body (`for (const sample of chunk.samples)`), lines 224-249:
a metric contributes exactly when it is non-null. -/
def aggStep (agg : FinalizeAgg) (sample : WorkoutSample) : FinalizeAgg :=
  let agg :=
    { agg with
        sampleCount := agg.sampleCount + 1
        maxElapsedSeconds :=
          if agg.maxElapsedSeconds < sample.elapsedSeconds then
            sample.elapsedSeconds
          else agg.maxElapsedSeconds }
  let agg :=
    match sample.powerWatts with
    | none => agg
    | some w =>
        { agg with
            powerSum := agg.powerSum + w
            powerCount := agg.powerCount + 1
            maxPowerWatts :=
              match agg.maxPowerWatts with
              | none => some w
              | some m => some (max m w) }
  let agg :=
    match sample.heartRateBpm with
    | none => agg
    | some w =>
        { agg with
            heartRateSum := agg.heartRateSum + w
            heartRateCount := agg.heartRateCount + 1
            maxHeartRateBpm :=
              match agg.maxHeartRateBpm with
              | none => some w
              | some m => some (max m w) }
  match sample.cadenceRpm with
  | none => agg
  | some w =>
      { agg with
          cadenceSum := agg.cadenceSum + w
          cadenceCount := agg.cadenceCount + 1
          maxCadenceRpm :=
            match agg.maxCadenceRpm with
            | none => some w
            | some m => some (max m w) }

/-- Source `finalizeWorkoutSession` (lines 186-275).  The chunk query by the
`by_session_chunk` index returns this session's chunks; aggregation folds over
their samples exactly as the nested `for` loops do. -/
def finalizeWorkoutSession (now : ℤ) (userSubject : String) (sessionId : ℕ)
    (statusArg : SessionStatus) (endedAtArg : Option ℚ) (db : Db) :
    Except String (FinalizeResult × Db) :=
  match db.getSession sessionId with
  | none => Except.error "Workout session not found."
  | some session =>
      if session.userSubject ≠ userSubject then
        Except.error "Workout session not found."
      else if session.status ≠ SessionStatus.recording then
        Except.ok ({ sessionId := session.id, status := session.status,
                     sampleCount := session.sampleCount }, db)
      else
        let sessionChunks := db.chunks.filter (fun c => c.sessionId = sessionId)
        let agg := sessionChunks.foldl
          (fun agg chunk => chunk.samples.foldl aggStep agg) initialAgg
        let endedAt := normalizeTimestamp now (endedAtArg.getD (now : ℚ))
        let db' := db.patchSession sessionId (fun s =>
          { s with
              status := statusArg
              endedAt := some endedAt
              sampleCount := agg.sampleCount
              elapsedSeconds := some agg.maxElapsedSeconds
              averagePowerWatts :=
                if 0 < agg.powerCount then
                  some (jsRound (agg.powerSum / (agg.powerCount : ℚ)))
                else none
              maxPowerWatts := agg.maxPowerWatts
              averageHeartRateBpm :=
                if 0 < agg.heartRateCount then
                  some (jsRound (agg.heartRateSum / (agg.heartRateCount : ℚ)))
                else none
              maxHeartRateBpm := agg.maxHeartRateBpm
              averageCadenceRpm :=
                if 0 < agg.cadenceCount then
                  some (jsRound (agg.cadenceSum / (agg.cadenceCount : ℚ)))
                else none
              maxCadenceRpm := agg.maxCadenceRpm
              updatedAt := now })
        Except.ok ({ sessionId := session.id, status := statusArg,
                     sampleCount := agg.sampleCount }, db')

/-! ## ERG target dispatch from the UI (useTrainerBluetooth `setErgTarget`,
lines 488-510)

`ergTargetWatts` is arbitrary UI state, so a JavaScript number that may be
NaN or infinite; `JsNum` models the full double value space the validation
cares about.  `hasControlPoint` models `controlCharacteristicRef.current` and
`writeSucceeds` the resolution of `writeValueWithResponse`.  `writes` records
every payload handed to `writeFtmsCommand`. -/

inductive JsNum where
  | nan
  | posInf
  | negInf
  | fin (q : ℚ)
deriving DecidableEq, Repr

/-- JavaScript `Math.round` on a general double: NaN and infinities map to themselves. -/
def jsNumRound : JsNum → JsNum
  | JsNum.nan => JsNum.nan
  | JsNum.posInf => JsNum.posInf
  | JsNum.negInf => JsNum.negInf
  | JsNum.fin q => JsNum.fin (jsRound q : ℤ)

/-- The check `!Number.isFinite(target) || target < 0 || target > 2000` of the source,
with NaN comparisons false as in JavaScript. -/
def ergTargetInvalid : JsNum → Bool
  | JsNum.fin q => q < 0 ∨ 2000 < q
  | _ => true

structure ErgOutcome where
  writes : List (List ℕ)
  statusMessage : String
deriving DecidableEq, Repr

def setErgTarget (ergTargetWatts : JsNum) (hasControlPoint : Bool)
    (writeSucceeds : Bool) : ErgOutcome :=
  let target := jsNumRound ergTargetWatts
  if ergTargetInvalid target then
    { writes := [], statusMessage := "Choose a target between 0 and 2000 watts." }
  else
    match target with
    | JsNum.fin q =>
        let t : ℤ := jsRound q
        if ¬hasControlPoint then
          { writes := []
            statusMessage := "ERG control unavailable: no FTMS control point found." }
        else if writeSucceeds then
          { writes := [encodeSetTargetPower t]
            statusMessage := "ERG target set to " ++ toString t ++ " W." }
        else
          { writes := [encodeSetTargetPower t]
            statusMessage := "Failed to set ERG target." }
    | _ =>
        { writes := [], statusMessage := "Choose a target between 0 and 2000 watts." }

/-! ## FIT export (convex/workoutExports.ts)

The Garmin SDK is an external collaborator; its `Utils.convertDateToDateTime`
and the host timezone offset are passed in as parameters, and `encoder
.writeMesg` calls are collected into an ordered message list.  Fields set from
`Profile` enum strings are kept as the string literals the source passes. -/

structure ExportSample where
  timestampMs : ℤ
  powerWatts : Option ℚ
  cadenceRpm : Option ℚ
  heartRateBpm : Option ℚ
deriving DecidableEq, Repr

structure ExportData where
  workoutTitle : String
  startedAt : ℤ
  endedAt : Option ℤ
  elapsedSeconds : ℤ
  samples : List ExportSample
deriving DecidableEq, Repr

inductive FitMesg where
  | fileId (type : String) (timeCreated : ℤ) (serialNumber : ℤ)
  | deviceInfo (productName : String) (timestamp : ℤ)
  | event (timestamp : ℤ) (eventType : String)
  | record (timestamp : ℤ) (power : Option ℤ) (cadence : Option ℤ)
      (heartRate : Option ℤ)
  | lap (timestamp startTime : ℤ) (totalElapsedTime totalTimerTime : ℤ)
  | session (timestamp startTime : ℤ) (totalElapsedTime totalTimerTime : ℤ)
      (sport : String) (numLaps : ℤ)
  | activity (timestamp : ℤ) (numSessions : ℤ) (localTimestamp : ℤ)
      (totalTimerTime : ℤ)
deriving DecidableEq, Repr

/-- Source `assignRecordMetric` (workoutExports.ts lines 131-139): the field is
present only when the value is a (finite) number. -/
def assignRecordMetric (value : Option ℚ) : Option ℤ :=
  value.map (fun v => max 0 (jsRound v))

/-- Slugification inside `buildFitFileName` (lines 146-149): lower-case,
collapse non-alphanumeric runs to single hyphens, trim hyphens, fall back to
"workout". -/
def slugChar (c : Char) : Bool := c.isLower ∨ c.isDigit

theorem dropWhile_length_le (p : α → Bool) :
    ∀ l : List α, (l.dropWhile p).length ≤ l.length
  | [] => by simp
  | a :: l => by
      rw [List.dropWhile]
      split
      · exact le_trans (dropWhile_length_le p l) (by simp)
      · simp

def collapseNonAlnum : List Char → List Char
  | [] => []
  | c :: rest =>
      if slugChar c then c :: collapseNonAlnum rest
      else '-' :: collapseNonAlnum (rest.dropWhile (fun d => ¬slugChar d))
termination_by l => l.length
decreasing_by
  · simp
  · have hle := dropWhile_length_le (fun d => ¬slugChar d = true) rest
    simp only [List.length_cons]
    omega

def slugify (title : String) : String :=
  let lowered := (title.toLower).toList
  let collapsed := collapseNonAlnum lowered
  let trimmed :=
    (((collapsed.dropWhile (· = '-')).reverse).dropWhile (· = '-')).reverse
  String.mk trimmed

def buildFitFileName (workoutTitle : String) (datePart : String) : String :=
  let safeTitle := slugify workoutTitle
  datePart ++ "_" ++ (if safeTitle = "" then "workout" else safeTitle) ++ ".fit"

/-- Source `generateWorkoutFitDownload` (workoutExports.ts lines 9-129),
after the storage query has produced `exportData`.  `dateToDateTime` stands in
for `Utils.convertDateToDateTime` on a millisecond timestamp,
`tzOffsetMinutes` for `getTimezoneOffset()`, and `datePart` for the
`yyyy-mm-dd` prefix the source derives from the start date. -/
def generateWorkoutFitDownload (dateToDateTime : ℤ → ℤ) (tzOffsetMinutes : ℤ)
    (datePart : String) (exportData : ExportData) :
    Except String (List FitMesg × String) :=
  let samples := exportData.samples
  if samples.length = 0 then
    Except.error "No workout samples were recorded for this session."
  else
  let startTimestampMs := exportData.startedAt
  let endTimestampMs :=
    exportData.endedAt.getD
      (((samples.getLast?).map (·.timestampMs)).getD
        (startTimestampMs + exportData.elapsedSeconds * 1000))
  let startDateTime := dateToDateTime startTimestampMs
  let endDateTime := dateToDateTime endTimestampMs
  let localTimestampOffsetSeconds := tzOffsetMinutes * (-60)
  let totalElapsedSeconds :=
    max 1 (jsRound (((endTimestampMs - startTimestampMs : ℤ) : ℚ) / 1000))
  let mesgs : List FitMesg :=
    [FitMesg.fileId "activity" startDateTime
        (max 1 (jsRound ((startTimestampMs : ℚ) / 1000))),
     FitMesg.deviceInfo "Just Ride" startDateTime,
     FitMesg.event startDateTime "start"] ++
    samples.map (fun sample =>
      FitMesg.record (dateToDateTime sample.timestampMs)
        (assignRecordMetric sample.powerWatts)
        (assignRecordMetric sample.cadenceRpm)
        (assignRecordMetric sample.heartRateBpm)) ++
    [FitMesg.event endDateTime "stop",
     FitMesg.lap endDateTime startDateTime totalElapsedSeconds
        totalElapsedSeconds,
     FitMesg.session endDateTime startDateTime totalElapsedSeconds
        totalElapsedSeconds "cycling" 1,
     FitMesg.activity endDateTime 1 (endDateTime + localTimestampOffsetSeconds)
        totalElapsedSeconds]
  Except.ok (mesgs, buildFitFileName exportData.workoutTitle datePart)

/-! ## Theorems -/

/-- Expressing `jsRound` as the mathematical floor of `q + 1/2`. -/
theorem jsRound_eq_floor (q : ℚ) : jsRound q = ⌊q + 1/2⌋ := by
  rw [jsRound, Rat.floor_def', Rat.floor_def]

/-- Rounding an integer is the identity. -/
theorem jsRound_intCast (m : ℤ) : jsRound (m : ℚ) = m := by
  rw [jsRound_eq_floor, Int.floor_int_add]
  norm_num

/-- A one-second ramp segment with distinct endpoints: valid per the data
model, but seconds 0 and `durationSeconds - 1` coincide. -/
def rampOneSecond : WorkoutSegment :=
  { id := "ramp-1s", kind := SegmentKind.ramp, durationSeconds := 1,
    ftpLow := 1/2, ftpHigh := 1, startSecond := 0 }

/-- C5 counterexample: for the valid one-second ramp segment `rampOneSecond`
(`ftpLow = 1/2 ≠ 1 = ftpHigh`, positive duration) and FTP 200, the computed
target at `secondsIntoSegment = durationSeconds - 1 = 0` is 100, not
`round(ftpHigh * ftp) = 200` as the claim requires, so the claimed endpoint
identity fails at duration 1 where both endpoints collapse onto second 0. -/
theorem rampTarget_one_second_counterexample :
    rampOneSecond.kind = SegmentKind.ramp ∧
    rampOneSecond.ftpLow ≠ rampOneSecond.ftpHigh ∧
    0 < rampOneSecond.durationSeconds ∧
    jsRound (rampOneSecond.ftpHigh * 200) = 200 ∧
    getSegmentTargetWatts rampOneSecond (rampOneSecond.durationSeconds - 1) 200 ≠
      jsRound (rampOneSecond.ftpHigh * 200) := by
  refine ⟨rfl, by norm_num [rampOneSecond], by norm_num [rampOneSecond], ?_, ?_⟩
  · rw [jsRound_eq_floor]
    norm_num [rampOneSecond]
  · have hlhs :
        getSegmentTargetWatts rampOneSecond (rampOneSecond.durationSeconds - 1) 200 =
          100 := by
      simp [getSegmentTargetWatts, rampOneSecond, jsRound_eq_floor]
      norm_num
    rw [hlhs, jsRound_eq_floor]
    norm_num [rampOneSecond]

/-- C5 (amended: `durationSeconds ≥ 2`, so that the two endpoints are distinct
seconds): for every ramp segment with `ftpLow ≠ ftpHigh` and every FTP > 0,
the computed target at `secondsIntoSegment = 0` is `round(ftpLow * ftp)`, the
target at `secondsIntoSegment = durationSeconds - 1` is
`round(ftpHigh * ftp)`, and every second up to `durationSeconds - 1` follows
the linear interpolation
`progress = secondsIntoSegment / max(1, durationSeconds - 1)`. -/
theorem rampTarget_endpoints (segment : WorkoutSegment) (ftp : ℚ)
    (hkind : segment.kind = SegmentKind.ramp)
    (hne : segment.ftpLow ≠ segment.ftpHigh)
    (hdur : 2 ≤ segment.durationSeconds)
    (hftp : 0 < ftp) :
    getSegmentTargetWatts segment 0 ftp = jsRound (segment.ftpLow * ftp) ∧
    getSegmentTargetWatts segment (segment.durationSeconds - 1) ftp =
      jsRound (segment.ftpHigh * ftp) ∧
    ∀ s : ℕ, s ≤ segment.durationSeconds - 1 →
      getSegmentTargetWatts segment s ftp =
        jsRound ((segment.ftpLow + (segment.ftpHigh - segment.ftpLow) *
          ((s : ℚ) / ((max 1 (segment.durationSeconds - 1) : ℕ) : ℚ))) * ftp) := by
  have hramp : segment.kind = SegmentKind.ramp ∧ segment.ftpLow ≠ segment.ftpHigh :=
    ⟨hkind, hne⟩
  have hden : max 1 (segment.durationSeconds - 1) = segment.durationSeconds - 1 := by
    omega
  have hdenQ : ((segment.durationSeconds - 1 : ℕ) : ℚ) ≠ 0 := by
    have h1 : segment.durationSeconds - 1 ≠ 0 := by omega
    exact_mod_cast h1
  refine ⟨?_, ?_, ?_⟩
  · simp only [getSegmentTargetWatts, if_pos hramp, if_pos hftp]
    congr 1
    rw [Nat.min_eq_left (Nat.zero_le _)]
    push_cast
    ring
  · simp only [getSegmentTargetWatts, if_pos hramp, if_pos hftp]
    congr 1
    rw [Nat.min_self, hden]
    rw [div_self hdenQ]
    ring
  · intro s hs
    simp only [getSegmentTargetWatts, if_pos hramp, if_pos hftp]
    congr 1
    rw [Nat.min_eq_left hs]

/-- C5 witness: a 16-second half-to-full ramp at FTP 200 hits 100 W at second
0 and 200 W at second 15. -/
theorem rampTarget_endpoints_witness :
    getSegmentTargetWatts
      { id := "r16", kind := SegmentKind.ramp, durationSeconds := 16,
        ftpLow := 1/2, ftpHigh := 1, startSecond := 0 } 0 200 =
      jsRound ((1 : ℚ)/2 * 200) ∧
    getSegmentTargetWatts
      { id := "r16", kind := SegmentKind.ramp, durationSeconds := 16,
        ftpLow := 1/2, ftpHigh := 1, startSecond := 0 } 15 200 =
      jsRound ((1 : ℚ) * 200) := by
  have h := rampTarget_endpoints
    { id := "r16", kind := SegmentKind.ramp, durationSeconds := 16,
      ftpLow := 1/2, ftpHigh := 1, startSecond := 0 } 200
    rfl (by norm_num) (by norm_num) (by norm_num)
  exact ⟨h.1, h.2.1⟩

/-- The 16-bit little-endian flags field at offset 0 of an indoor-bike-data
buffer. -/
def flagsOf (buf : List (Fin 256)) : ℕ := byteAt buf 0 + 256 * byteAt buf 1

/-- The cursor offset of the power field as the spec describes it: start at 2;
+2 if bit 0 is clear; +2 for each of bits 1, 2, 3, 5; +3 for bit 4. -/
def powerFieldOffset (flags : ℕ) : ℕ :=
  2 + (if flags.testBit 0 = false then 2 else 0) +
    (if flags.testBit 1 = true then 2 else 0) +
    (if flags.testBit 2 = true then 2 else 0) +
    (if flags.testBit 3 = true then 2 else 0) +
    (if flags.testBit 4 = true then 3 else 0) +
    (if flags.testBit 5 = true then 2 else 0)

theorem testBit_eq_div_mod (n k : ℕ) : n.testBit k = decide (n / 2 ^ k % 2 = 1) :=
  Nat.testBit_to_div_mod

/-- The source's sequential cursor walk equals the spec's sum-of-widths
formula. -/
theorem ibdOffset_eq_powerFieldOffset (flags : ℕ) :
    ibdOffset flags = powerFieldOffset flags := by
  have hb0 : (flags.testBit 0 = false) = (flags % 2 = 0) := by
    rw [testBit_eq_div_mod]
    simp only [pow_zero, Nat.div_one, decide_eq_false_iff_not]
    exact propext (by omega)
  have hb1 : (flags.testBit 1 = true) = (flags / 2 % 2 = 1) := by
    rw [testBit_eq_div_mod]
    norm_num
  have hb2 : (flags.testBit 2 = true) = (flags / 4 % 2 = 1) := by
    rw [testBit_eq_div_mod]
    norm_num
  have hb3 : (flags.testBit 3 = true) = (flags / 8 % 2 = 1) := by
    rw [testBit_eq_div_mod]
    norm_num
  have hb4 : (flags.testBit 4 = true) = (flags / 16 % 2 = 1) := by
    rw [testBit_eq_div_mod]
    norm_num
  have hb5 : (flags.testBit 5 = true) = (flags / 32 % 2 = 1) := by
    rw [testBit_eq_div_mod]
    norm_num
  simp only [ibdOffset, powerFieldOffset, hb0, hb1, hb2, hb3, hb4, hb5]
  split_ifs <;> omega

/-- Rewriting `parseIndoorBikeData` in closed form: `none` below two bytes or with flag
bit 6 clear; otherwise the signed 16-bit read at `powerFieldOffset`, guarded
by the buffer length. -/
theorem parseIndoorBikeData_eq (buf : List (Fin 256)) :
    parseIndoorBikeData buf =
      if buf.length < 2 then none
      else if (flagsOf buf).testBit 6 = true then
        (if buf.length < powerFieldOffset (flagsOf buf) + 2 then none
         else some (toInt16 (byteAt buf (powerFieldOffset (flagsOf buf)) +
           256 * byteAt buf (powerFieldOffset (flagsOf buf) + 1))))
      else none := by
  have hb6 : ((flagsOf buf).testBit 6 = true) = (flagsOf buf / 64 % 2 = 1) := by
    rw [testBit_eq_div_mod]
    norm_num
  have hflags : byteAt buf 0 + 256 * byteAt buf 1 = flagsOf buf := rfl
  have hoff : ibdOffset (flagsOf buf) = powerFieldOffset (flagsOf buf) :=
    ibdOffset_eq_powerFieldOffset (flagsOf buf)
  simp only [parseIndoorBikeData, hflags, hoff, hb6]

/-- The power-field cursor never starts before offset 2. -/
theorem powerFieldOffset_ge_two (flags : ℕ) : 2 ≤ powerFieldOffset flags := by
  simp only [powerFieldOffset]
  split_ifs <;> omega

/-- C7: whenever bit 6 of the 16-bit flags field is unset the decoder returns
`none`, regardless of the buffer's length; when bit 6 is set it reads a signed
little-endian 16-bit integer at the cursor offset determined by flag bits 0-5
(start at 2; +2 if bit 0 is clear; +2 for each of bits 1, 2, 3, 5; +3 for bit
4), returning `none` when the buffer is too short for that read. -/
theorem indoorBikeData_power_flag (buf : List (Fin 256)) :
    ((flagsOf buf).testBit 6 = false → parseIndoorBikeData buf = none) ∧
    ((flagsOf buf).testBit 6 = true →
      parseIndoorBikeData buf =
        if buf.length < powerFieldOffset (flagsOf buf) + 2 then none
        else some (toInt16 (byteAt buf (powerFieldOffset (flagsOf buf)) +
          256 * byteAt buf (powerFieldOffset (flagsOf buf) + 1)))) := by
  constructor
  · intro h6
    rw [parseIndoorBikeData_eq, h6]
    simp
  · intro h6
    rw [parseIndoorBikeData_eq, h6]
    by_cases hlen : buf.length < 2
    · rw [if_pos hlen, if_pos]
      have h2 := powerFieldOffset_ge_two (flagsOf buf)
      omega
    · rw [if_neg hlen, if_pos rfl]

/-- C7 witness: a four-byte buffer with bit 6 clear decodes to `none`, and a
six-byte buffer with flags 0x0040 decodes the int16 at offset 4 (here 200 W). -/
theorem indoorBikeData_power_flag_witness :
    parseIndoorBikeData [(0 : Fin 256), 0, 5, 5] = none ∧
    parseIndoorBikeData [(64 : Fin 256), 0, 0, 0, 200, 0] = some 200 := by
  constructor
  · exact (indoorBikeData_power_flag [(0 : Fin 256), 0, 5, 5]).1 (by decide)
  · have h :=
      (indoorBikeData_power_flag [(64 : Fin 256), 0, 0, 0, 200, 0]).2 (by decide)
    rw [h]
    decide

/-- C8: `setErgTarget` validates the rounded target against `0 ≤ watts ≤
2000` (a non-finite `ergTargetWatts` rounds to a non-finite value and is also
rejected): every invalid value is rejected locally with a status message and
no control-point write, and every in-range value (with the control point
resolved) is encoded as the 3-byte set-target-power command — opcode 0x05
followed by the watts as a signed little-endian 16-bit integer — and written. -/
theorem setErgTarget_validation (w : JsNum) (hasControlPoint writeSucceeds : Bool) :
    ((∀ q : ℚ, w = JsNum.fin q → jsRound q < 0 ∨ 2000 < jsRound q) →
      setErgTarget w hasControlPoint writeSucceeds =
        { writes := [],
          statusMessage := "Choose a target between 0 and 2000 watts." }) ∧
    (∀ q : ℚ, w = JsNum.fin q → 0 ≤ jsRound q → jsRound q ≤ 2000 →
      hasControlPoint = true →
      (setErgTarget w hasControlPoint writeSucceeds).writes =
        [encodeSetTargetPower (jsRound q)] ∧
      encodeSetTargetPower (jsRound q) =
        [5, (jsRound q % 65536).toNat % 256, (jsRound q % 65536).toNat / 256] ∧
      toInt16 ((jsRound q % 65536).toNat % 256 +
        256 * ((jsRound q % 65536).toNat / 256)) = jsRound q) := by
  constructor
  · intro hinvalid
    cases w with
    | nan => rfl
    | posInf => rfl
    | negInf => rfl
    | fin q =>
        have hq := hinvalid q rfl
        have hcond : ergTargetInvalid (jsNumRound (JsNum.fin q)) = true := by
          simp only [jsNumRound, ergTargetInvalid, decide_eq_true_eq]
          rcases hq with hq | hq
          · left
            exact_mod_cast hq
          · right
            exact_mod_cast hq
        simp [setErgTarget, hcond]
  · intro q hq h0 h2000 hcp
    subst hq
    subst hcp
    have hcond : ergTargetInvalid (JsNum.fin ((jsRound q : ℤ) : ℚ)) = false := by
      simp only [ergTargetInvalid, decide_eq_false_iff_not]
      push_neg
      constructor
      · exact_mod_cast h0
      · exact_mod_cast h2000
    have hround : jsRound ((jsRound q : ℤ) : ℚ) = jsRound q := jsRound_intCast _
    refine ⟨?_, rfl, ?_⟩
    · cases writeSucceeds <;>
        simp [setErgTarget, hcond, jsNumRound, hround]
    · have ht : (jsRound q % 65536).toNat = (jsRound q).toNat := by
        have : jsRound q % 65536 = jsRound q := Int.emod_eq_of_lt h0 (by omega)
        rw [this]
      rw [ht]
      have hlt : (jsRound q).toNat ≤ 2000 := by omega
      have hsplit : (jsRound q).toNat % 256 + 256 * ((jsRound q).toNat / 256) =
          (jsRound q).toNat := by omega
      rw [hsplit, toInt16, if_pos (by omega)]
      omega

/-- C8 witness: target 250 with a resolved control point writes
`[0x05, 0xFA, 0x00]`, and target 2001 is rejected without a write. -/
theorem setErgTarget_validation_witness :
    (setErgTarget (JsNum.fin 250) true true).writes = [encodeSetTargetPower 250] ∧
    setErgTarget (JsNum.fin 2001) true true =
      { writes := [],
        statusMessage := "Choose a target between 0 and 2000 watts." } := by
  constructor
  · have h := ((setErgTarget_validation (JsNum.fin 250) true true).2 250 rfl
      (by rw [jsRound_eq_floor]; norm_num) (by rw [jsRound_eq_floor]; norm_num)
      rfl).1
    have h250 : jsRound (250 : ℚ) = 250 := by
      rw [jsRound_eq_floor]
      norm_num
    rw [h, h250]
  · exact (setErgTarget_validation (JsNum.fin 2001) true true).1
      (by
        intro q hq
        cases hq
        right
        rw [jsRound_eq_floor]
        norm_num)

/-- C9: exporting a session whose merged sample list is empty fails with the
"no samples" error; the error result carries no FIT messages and no file
content, so nothing is encoded or written. -/
theorem fitExport_empty_fails (dateToDateTime : ℤ → ℤ) (tzOffsetMinutes : ℤ)
    (datePart : String) (exportData : ExportData)
    (h : exportData.samples = []) :
    generateWorkoutFitDownload dateToDateTime tzOffsetMinutes datePart
        exportData =
      Except.error "No workout samples were recorded for this session." := by
  simp [generateWorkoutFitDownload, h]

/-- C9 witness: a concrete empty-sample session fails with the "no samples"
error. -/
theorem fitExport_empty_fails_witness :
    generateWorkoutFitDownload (fun ms => ms / 1000 - 631065600) (-120)
        "2026-01-01"
        { workoutTitle := "Empty Ride", startedAt := 1000, endedAt := none,
          elapsedSeconds := 0, samples := [] } =
      Except.error "No workout samples were recorded for this session." :=
  fitExport_empty_fails (fun ms => ms / 1000 - 631065600) (-120) "2026-01-01"
    { workoutTitle := "Empty Ride", startedAt := 1000, endedAt := none,
      elapsedSeconds := 0, samples := [] } rfl

/-- C4: appending a chunk whose `chunkIndex` already exists for the session
(valid call: non-empty chunk within the size limit, owned recording session)
returns `{inserted := false, reason := "duplicate_chunk"}` instead of
throwing, and returns the database unchanged: no chunk is stored and the
session record, including its `sampleCount`, is untouched. -/
theorem appendChunk_duplicate_idempotent (now : ℤ) (u : String) (sid : ℕ)
    (ciArg : ℚ) (samplesArg : List WorkoutSample) (db : Db) (sess : SessionDoc)
    (hne : samplesArg ≠ [])
    (hlen : samplesArg.length ≤ chunkSizeLimit)
    (hci : 0 ≤ jsRound ciArg)
    (hfind : db.getSession sid = some sess)
    (howner : sess.userSubject = u)
    (hrec : sess.status = SessionStatus.recording)
    (hdup : (db.chunks.find? (fun c =>
        c.sessionId = sid ∧ c.chunkIndex = jsRound ciArg)).isSome = true) :
    appendWorkoutSampleChunk now u sid ciArg samplesArg db =
      Except.ok ({ inserted := false, reason := some "duplicate_chunk" }, db) := by
  have h1 : ¬(samplesArg.length = 0) := by
    simpa [List.length_eq_zero] using hne
  have h2 : ¬(chunkSizeLimit < samplesArg.length) := not_lt.mpr hlen
  have h3 : ¬(jsRound ciArg < 0) := not_lt.mpr hci
  simp only [appendWorkoutSampleChunk, if_neg h1, if_neg h2, normalizeChunkIndex,
    if_neg h3, hfind]
  rw [if_neg (by simp [howner]), if_neg (by simp [hrec]), if_pos hdup]

/-- Demo fixtures: a recording and a finalized session over the same stored
chunk, used to witness the storage-mutation theorems. -/
def demoSamplePower : WorkoutSample :=
  { timestampMs := 1000, elapsedSeconds := 0, segmentId := some "s1",
    segmentIndex := 0, targetWatts := some 150, powerWatts := some 100,
    cadenceRpm := none, heartRateBpm := none }

def demoSampleNull : WorkoutSample :=
  { timestampMs := 2000, elapsedSeconds := 1, segmentId := some "s1",
    segmentIndex := 0, targetWatts := none, powerWatts := some 110,
    cadenceRpm := none, heartRateBpm := none }

def demoSessionRec : SessionDoc :=
  { id := 1, userSubject := "rider", status := SessionStatus.recording,
    sampleCount := 2, startedAt := 500, endedAt := none, elapsedSeconds := none,
    averagePowerWatts := none, maxPowerWatts := none,
    averageHeartRateBpm := none, maxHeartRateBpm := none,
    averageCadenceRpm := none, maxCadenceRpm := none, updatedAt := 500 }

def demoSessionDone : SessionDoc :=
  { id := 1, userSubject := "rider", status := SessionStatus.completed,
    sampleCount := 2, startedAt := 500, endedAt := some 3000,
    elapsedSeconds := some 1, averagePowerWatts := some 105,
    maxPowerWatts := some 110, averageHeartRateBpm := none,
    maxHeartRateBpm := none, averageCadenceRpm := none, maxCadenceRpm := none,
    updatedAt := 3000 }

def demoChunk0 : ChunkDoc :=
  { userSubject := "rider", sessionId := 1, chunkIndex := 0,
    fromElapsedSeconds := 0, toElapsedSeconds := 1, sampleCount := 2,
    samples := [demoSamplePower, demoSampleNull], createdAt := 600 }

def demoDbRecording : Db := { sessions := [demoSessionRec], chunks := [demoChunk0] }

def demoDbDone : Db := { sessions := [demoSessionDone], chunks := [demoChunk0] }

/-- C4 witness: re-appending chunk 0 of the demo recording session is a
duplicate no-op that leaves the database unchanged. -/
theorem appendChunk_duplicate_idempotent_witness :
    appendWorkoutSampleChunk 999 "rider" 1 0 [demoSamplePower] demoDbRecording =
      Except.ok ({ inserted := false, reason := some "duplicate_chunk" },
        demoDbRecording) := by
  have h0 : jsRound (0 : ℚ) = 0 := by
    rw [jsRound_eq_floor]
    norm_num
  refine appendChunk_duplicate_idempotent 999 "rider" 1 0 [demoSamplePower]
    demoDbRecording demoSessionRec (by simp) (by norm_num [chunkSizeLimit])
    (by rw [h0]) rfl rfl rfl ?_
  rw [h0]
  decide

/-- C10: once a session has left the `recording` status, finalizing it again
performs no database writes and returns the stored status and `sampleCount`
unchanged, so a second finalize call observes exactly the result of the
first. -/
theorem finalize_idempotent_after_finalized (now : ℤ) (u : String) (sid : ℕ)
    (statusArg : SessionStatus) (endedAtArg : Option ℚ) (db : Db)
    (sess : SessionDoc)
    (hfind : db.getSession sid = some sess)
    (howner : sess.userSubject = u)
    (hstat : sess.status = SessionStatus.completed ∨
      sess.status = SessionStatus.ended) :
    finalizeWorkoutSession now u sid statusArg endedAtArg db =
      Except.ok ({ sessionId := sess.id, status := sess.status,
                   sampleCount := sess.sampleCount }, db) := by
  have hne : sess.status ≠ SessionStatus.recording := by
    rcases hstat with h | h <;> simp [h]
  simp only [finalizeWorkoutSession, hfind]
  rw [if_neg (by simp [howner]), if_pos hne]

/-- C10 witness: finalizing the already-completed demo session returns its
stored status and sample count and does not modify the database. -/
theorem finalize_idempotent_after_finalized_witness :
    finalizeWorkoutSession 5000 "rider" 1 SessionStatus.ended none demoDbDone =
      Except.ok ({ sessionId := 1, status := SessionStatus.completed,
                   sampleCount := 2 }, demoDbDone) :=
  finalize_idempotent_after_finalized 5000 "rider" 1 SessionStatus.ended none
    demoDbDone demoSessionDone rfl rfl (Or.inl rfl)

/-- The max-accumulator update used for each metric in
`finalizeWorkoutSession`: seed on first non-null value, `Math.max` after. -/
def optMax (m : Option ℚ) (w : ℚ) : Option ℚ :=
  match m with
  | none => some w
  | some x => some (max x w)

/-- Restating `aggStep` with one independent update per field. -/
theorem aggStep_eq (a : FinalizeAgg) (s : WorkoutSample) :
    aggStep a s =
      { sampleCount := a.sampleCount + 1
        maxElapsedSeconds :=
          if a.maxElapsedSeconds < s.elapsedSeconds then s.elapsedSeconds
          else a.maxElapsedSeconds
        powerSum :=
          match s.powerWatts with
          | none => a.powerSum
          | some w => a.powerSum + w
        powerCount :=
          match s.powerWatts with
          | none => a.powerCount
          | some _ => a.powerCount + 1
        maxPowerWatts :=
          match s.powerWatts with
          | none => a.maxPowerWatts
          | some w => optMax a.maxPowerWatts w
        heartRateSum :=
          match s.heartRateBpm with
          | none => a.heartRateSum
          | some w => a.heartRateSum + w
        heartRateCount :=
          match s.heartRateBpm with
          | none => a.heartRateCount
          | some _ => a.heartRateCount + 1
        maxHeartRateBpm :=
          match s.heartRateBpm with
          | none => a.maxHeartRateBpm
          | some w => optMax a.maxHeartRateBpm w
        cadenceSum :=
          match s.cadenceRpm with
          | none => a.cadenceSum
          | some w => a.cadenceSum + w
        cadenceCount :=
          match s.cadenceRpm with
          | none => a.cadenceCount
          | some _ => a.cadenceCount + 1
        maxCadenceRpm :=
          match s.cadenceRpm with
          | none => a.maxCadenceRpm
          | some w => optMax a.maxCadenceRpm w } := by
  rcases hp : s.powerWatts with _ | w <;> rcases hh : s.heartRateBpm with _ | x <;>
    rcases hc : s.cadenceRpm with _ | y <;> simp [aggStep, optMax, hp, hh, hc]

/-- Power aggregation over a sample list: count, sum and running max are taken
only over the non-null `powerWatts` values. -/
theorem foldl_aggStep_power (l : List WorkoutSample) (a : FinalizeAgg) :
    (l.foldl aggStep a).powerCount =
        a.powerCount + (l.filterMap (·.powerWatts)).length ∧
      (l.foldl aggStep a).powerSum =
        a.powerSum + (l.filterMap (·.powerWatts)).sum ∧
      (l.foldl aggStep a).maxPowerWatts =
        (l.filterMap (·.powerWatts)).foldl optMax a.maxPowerWatts := by
  induction l generalizing a with
  | nil => simp
  | cons s t ih =>
      rcases hp : s.powerWatts with _ | w <;>
        simp only [List.foldl_cons, List.filterMap_cons, hp, aggStep_eq,
          List.length_cons, List.sum_cons, ih] <;>
        first
          | trivial
          | exact ⟨by push_cast; ring, by push_cast; ring, trivial⟩

/-- Heart-rate aggregation analogue of `foldl_aggStep_power`. -/
theorem foldl_aggStep_heartRate (l : List WorkoutSample) (a : FinalizeAgg) :
    (l.foldl aggStep a).heartRateCount =
        a.heartRateCount + (l.filterMap (·.heartRateBpm)).length ∧
      (l.foldl aggStep a).heartRateSum =
        a.heartRateSum + (l.filterMap (·.heartRateBpm)).sum ∧
      (l.foldl aggStep a).maxHeartRateBpm =
        (l.filterMap (·.heartRateBpm)).foldl optMax a.maxHeartRateBpm := by
  induction l generalizing a with
  | nil => simp
  | cons s t ih =>
      rcases hh : s.heartRateBpm with _ | w <;>
        simp only [List.foldl_cons, List.filterMap_cons, hh, aggStep_eq,
          List.length_cons, List.sum_cons, ih] <;>
        first
          | trivial
          | exact ⟨by push_cast; ring, by push_cast; ring, trivial⟩

/-- Cadence aggregation analogue of `foldl_aggStep_power`. -/
theorem foldl_aggStep_cadence (l : List WorkoutSample) (a : FinalizeAgg) :
    (l.foldl aggStep a).cadenceCount =
        a.cadenceCount + (l.filterMap (·.cadenceRpm)).length ∧
      (l.foldl aggStep a).cadenceSum =
        a.cadenceSum + (l.filterMap (·.cadenceRpm)).sum ∧
      (l.foldl aggStep a).maxCadenceRpm =
        (l.filterMap (·.cadenceRpm)).foldl optMax a.maxCadenceRpm := by
  induction l generalizing a with
  | nil => simp
  | cons s t ih =>
      rcases hc : s.cadenceRpm with _ | w <;>
        simp only [List.foldl_cons, List.filterMap_cons, hc, aggStep_eq,
          List.length_cons, List.sum_cons, ih] <;>
        first
          | trivial
          | exact ⟨by push_cast; ring, by push_cast; ring, trivial⟩

/-- The nested chunk/sample loops equal one fold over the concatenated
samples. -/
theorem foldl_aggStep_join (chunks : List ChunkDoc) (a : FinalizeAgg) :
    chunks.foldl (fun agg chunk => chunk.samples.foldl aggStep agg) a =
      ((chunks.map (·.samples)).flatten).foldl aggStep a := by
  induction chunks generalizing a with
  | nil => simp
  | cons c t ih => simp [List.foldl_append, ih]

/-- Seeding the max accumulator from `none` yields the list maximum. -/
theorem foldl_optMax_some (l : List ℚ) (x : ℚ) :
    l.foldl optMax (some x) = some (l.foldl max x) := by
  induction l generalizing x with
  | nil => rfl
  | cons w t ih => simp [optMax, ih]

theorem foldl_optMax_none (l : List ℚ) :
    l.foldl optMax none = l.max? := by
  cases l with
  | nil => rfl
  | cons w t => simp [List.max?, foldl_optMax_some, optMax]

/-- Patching a session in place resolves through `getSession` when the patch
preserves ids. -/
theorem getSession_patchSession (db : Db) (sid : ℕ) (f : SessionDoc → SessionDoc)
    (hid : ∀ s, (f s).id = s.id) :
    (db.patchSession sid f).getSession sid = (db.getSession sid).map f := by
  rcases db with ⟨sessions, chunks⟩
  simp only [Db.patchSession, Db.getSession]
  induction sessions with
  | nil => rfl
  | cons s t ih =>
      simp only [List.map_cons]
      by_cases hs : s.id = sid
      · rw [List.find?_cons_of_pos _ (by simp [if_pos hs, hid, hs]),
            List.find?_cons_of_pos _ (by simp [hs])]
        simp [if_pos hs]
      · rw [List.find?_cons_of_neg _ (by simp [if_neg hs, hs]),
            List.find?_cons_of_neg _ (by simp [hs])]
        exact ih

/-- The non-null values of one metric across all samples stored for a
session, in chunk storage order. -/
def sessionMetric (db : Db) (sid : ℕ) (f : WorkoutSample → Option ℚ) : List ℚ :=
  (((db.chunks.filter (fun c => c.sessionId = sid)).map (·.samples)).flatten).filterMap f

/-- C6: finalizing a recording session stores, for each of power, heart rate
and cadence, an average and maximum computed only over the samples where that
metric is non-null; when every stored sample has null for a metric, that
metric's aggregates are stored as absent (`none`), never as zero. -/
theorem finalize_aggregates_nonnull_only (now : ℤ) (u : String) (sid : ℕ)
    (statusArg : SessionStatus) (endedAtArg : Option ℚ) (db : Db)
    (sess : SessionDoc)
    (hfind : db.getSession sid = some sess)
    (howner : sess.userSubject = u)
    (hrec : sess.status = SessionStatus.recording) :
    ∃ res db',
      finalizeWorkoutSession now u sid statusArg endedAtArg db =
        Except.ok (res, db') ∧
      (db'.getSession sid).map (fun s => s.averagePowerWatts) =
        some (if sessionMetric db sid (fun s => s.powerWatts) = [] then none
         else some (jsRound ((sessionMetric db sid (fun s => s.powerWatts)).sum /
           ((sessionMetric db sid (fun s => s.powerWatts)).length : ℚ)))) ∧
      (db'.getSession sid).map (fun s => s.maxPowerWatts) =
        some ((sessionMetric db sid (fun s => s.powerWatts)).max?) ∧
      (db'.getSession sid).map (fun s => s.averageHeartRateBpm) =
        some (if sessionMetric db sid (fun s => s.heartRateBpm) = [] then none
         else some (jsRound ((sessionMetric db sid (fun s => s.heartRateBpm)).sum /
           ((sessionMetric db sid (fun s => s.heartRateBpm)).length : ℚ)))) ∧
      (db'.getSession sid).map (fun s => s.maxHeartRateBpm) =
        some ((sessionMetric db sid (fun s => s.heartRateBpm)).max?) ∧
      (db'.getSession sid).map (fun s => s.averageCadenceRpm) =
        some (if sessionMetric db sid (fun s => s.cadenceRpm) = [] then none
         else some (jsRound ((sessionMetric db sid (fun s => s.cadenceRpm)).sum /
           ((sessionMetric db sid (fun s => s.cadenceRpm)).length : ℚ)))) ∧
      (db'.getSession sid).map (fun s => s.maxCadenceRpm) =
        some ((sessionMetric db sid (fun s => s.cadenceRpm)).max?) := by
  simp only [finalizeWorkoutSession, hfind]
  rw [if_neg (show ¬(sess.userSubject ≠ u) by simp [howner]),
    if_neg (show ¬(sess.status ≠ SessionStatus.recording) by simp [hrec])]
  refine ⟨_, _, rfl, ?_, ?_, ?_, ?_, ?_, ?_⟩
  all_goals rw [getSession_patchSession, hfind]
  all_goals try (intro s; rfl)
  all_goals
    simp only [Option.map_some', Option.some.injEq, foldl_aggStep_join]
  · rw [(foldl_aggStep_power _ initialAgg).1,
      (foldl_aggStep_power _ initialAgg).2.1]
    simp only [initialAgg, zero_add]
    by_cases hnil : sessionMetric db sid (fun s => s.powerWatts) = []
    · rw [if_pos hnil]
      rw [show (((db.chunks.filter (fun c => c.sessionId = sid)).map
        (·.samples)).flatten).filterMap (fun s => s.powerWatts) =
          sessionMetric db sid (fun s => s.powerWatts) from rfl, hnil]
      simp
    · rw [if_neg hnil]
      rw [show (((db.chunks.filter (fun c => c.sessionId = sid)).map
        (·.samples)).flatten).filterMap (fun s => s.powerWatts) =
          sessionMetric db sid (fun s => s.powerWatts) from rfl]
      rw [if_pos (by exact_mod_cast List.length_pos.mpr hnil)]
      push_cast
      rfl
  · rw [(foldl_aggStep_power _ initialAgg).2.2]
    simp only [initialAgg]
    rw [show (((db.chunks.filter (fun c => c.sessionId = sid)).map
      (·.samples)).flatten).filterMap (fun s => s.powerWatts) =
        sessionMetric db sid (fun s => s.powerWatts) from rfl]
    exact foldl_optMax_none _
  · rw [(foldl_aggStep_heartRate _ initialAgg).1,
      (foldl_aggStep_heartRate _ initialAgg).2.1]
    simp only [initialAgg, zero_add]
    by_cases hnil : sessionMetric db sid (fun s => s.heartRateBpm) = []
    · rw [if_pos hnil]
      rw [show (((db.chunks.filter (fun c => c.sessionId = sid)).map
        (·.samples)).flatten).filterMap (fun s => s.heartRateBpm) =
          sessionMetric db sid (fun s => s.heartRateBpm) from rfl, hnil]
      simp
    · rw [if_neg hnil]
      rw [show (((db.chunks.filter (fun c => c.sessionId = sid)).map
        (·.samples)).flatten).filterMap (fun s => s.heartRateBpm) =
          sessionMetric db sid (fun s => s.heartRateBpm) from rfl]
      rw [if_pos (by exact_mod_cast List.length_pos.mpr hnil)]
      push_cast
      rfl
  · rw [(foldl_aggStep_heartRate _ initialAgg).2.2]
    simp only [initialAgg]
    rw [show (((db.chunks.filter (fun c => c.sessionId = sid)).map
      (·.samples)).flatten).filterMap (fun s => s.heartRateBpm) =
        sessionMetric db sid (fun s => s.heartRateBpm) from rfl]
    exact foldl_optMax_none _
  · rw [(foldl_aggStep_cadence _ initialAgg).1,
      (foldl_aggStep_cadence _ initialAgg).2.1]
    simp only [initialAgg, zero_add]
    by_cases hnil : sessionMetric db sid (fun s => s.cadenceRpm) = []
    · rw [if_pos hnil]
      rw [show (((db.chunks.filter (fun c => c.sessionId = sid)).map
        (·.samples)).flatten).filterMap (fun s => s.cadenceRpm) =
          sessionMetric db sid (fun s => s.cadenceRpm) from rfl, hnil]
      simp
    · rw [if_neg hnil]
      rw [show (((db.chunks.filter (fun c => c.sessionId = sid)).map
        (·.samples)).flatten).filterMap (fun s => s.cadenceRpm) =
          sessionMetric db sid (fun s => s.cadenceRpm) from rfl]
      rw [if_pos (by exact_mod_cast List.length_pos.mpr hnil)]
      push_cast
      rfl
  · rw [(foldl_aggStep_cadence _ initialAgg).2.2]
    simp only [initialAgg]
    rw [show (((db.chunks.filter (fun c => c.sessionId = sid)).map
      (·.samples)).flatten).filterMap (fun s => s.cadenceRpm) =
        sessionMetric db sid (fun s => s.cadenceRpm) from rfl]
    exact foldl_optMax_none _

/-- C6 witness: finalizing the demo recording session (powers 100 and 110,
heart rate all null) stores average power 105 and max power 110, and stores no
heart-rate aggregates at all. -/
theorem finalize_aggregates_nonnull_only_witness :
    ∃ res db',
      finalizeWorkoutSession 5000 "rider" 1 SessionStatus.completed none
          demoDbRecording =
        Except.ok (res, db') ∧
      (db'.getSession 1).map (fun s => s.averagePowerWatts) = some (some 105) ∧
      (db'.getSession 1).map (fun s => s.maxPowerWatts) = some (some 110) ∧
      (db'.getSession 1).map (fun s => s.averageHeartRateBpm) = some none ∧
      (db'.getSession 1).map (fun s => s.maxHeartRateBpm) = some none := by
  obtain ⟨res, db', h1, h2, h3, h4, h5, h6, h7⟩ :=
    finalize_aggregates_nonnull_only 5000 "rider" 1 SessionStatus.completed none
      demoDbRecording demoSessionRec rfl rfl rfl
  have hpw : sessionMetric demoDbRecording 1 (fun s => s.powerWatts) =
      [100, 110] := rfl
  have hhr : sessionMetric demoDbRecording 1 (fun s => s.heartRateBpm) =
      ([] : List ℚ) := rfl
  refine ⟨res, db', h1, ?_, ?_, ?_, ?_⟩
  · rw [h2, hpw]
    rw [if_neg (by simp)]
    have : jsRound (((100 : ℚ) + (110 + 0)) / (([100, 110] : List ℚ).length : ℚ)) =
        105 := by
      rw [jsRound_eq_floor]
      norm_num
    simp only [List.sum_cons, List.sum_nil, this]
  · rw [h3, hpw]
    simp only [List.max?]
    norm_num [List.foldl]
  · rw [h4, hhr]
    simp
  · rw [h5, hhr]
    rfl

/-- One flush loop assigns the consecutive indices starting at the current
counter, in order, and advances the counter by exactly the number of chunks it
appended; the session id is untouched. -/
theorem flushLoop_spec (forceFlush : Bool) (s : RecorderState α) :
    (flushLoop forceFlush s).1.nextChunkIndex =
        s.nextChunkIndex + (flushLoop forceFlush s).2.length ∧
      (flushLoop forceFlush s).2.map Prod.fst =
        List.range' s.nextChunkIndex (flushLoop forceFlush s).2.length ∧
      (flushLoop forceFlush s).1.sessionId = s.sessionId := by
  suffices H : ∀ (n : ℕ) (s : RecorderState α), s.sampleBuffer.length = n →
      (flushLoop forceFlush s).1.nextChunkIndex =
          s.nextChunkIndex + (flushLoop forceFlush s).2.length ∧
        (flushLoop forceFlush s).2.map Prod.fst =
          List.range' s.nextChunkIndex (flushLoop forceFlush s).2.length ∧
        (flushLoop forceFlush s).1.sessionId = s.sessionId by
    exact H s.sampleBuffer.length s rfl
  intro n
  induction n using Nat.strong_induction_on with
  | _ n ih =>
      intro s hn
      rw [flushLoop]
      by_cases h : workoutSampleChunkSize ≤ s.sampleBuffer.length ∨
          (forceFlush = true ∧ 0 < s.sampleBuffer.length)
      · rw [dif_pos h]
        dsimp only
        have hpos : 0 < s.sampleBuffer.length := by
          rcases h with h | h
          · have h60 : (0 : ℕ) < workoutSampleChunkSize := by
              norm_num [workoutSampleChunkSize]
            omega
          · exact h.2
        set tc := (if forceFlush = true then s.sampleBuffer.length
          else min workoutSampleChunkSize s.sampleBuffer.length) with htcdef
        have htc : 0 < tc := by
          rw [htcdef]
          have h60 : workoutSampleChunkSize = 60 := rfl
          split <;> omega
        rcases hp : flushLoop forceFlush
            { s with
                sampleBuffer := s.sampleBuffer.drop tc
                nextChunkIndex := s.nextChunkIndex + 1 } with ⟨s2, rest⟩
        obtain ⟨i1, i2, i3⟩ := ih (s.sampleBuffer.length - tc) (by omega)
          { s with
              sampleBuffer := s.sampleBuffer.drop tc
              nextChunkIndex := s.nextChunkIndex + 1 }
          (by simp)
        rw [hp] at i1 i2 i3
        simp only [hp]
        have i1' : s2.nextChunkIndex = s.nextChunkIndex + 1 + rest.length := i1
        have i2' : rest.map Prod.fst =
            List.range' (s.nextChunkIndex + 1) rest.length := i2
        have i3' : s2.sessionId = s.sessionId := i3
        refine ⟨?_, ?_, i3'⟩
        · simp only [List.length_cons]
          omega
        · simp only [List.map_cons, List.length_cons, List.range'_succ]
          rw [i2']
      · rw [dif_neg h]
        simp

/-- Running any event sequence appends chunks carrying exactly the
consecutive indices from the starting counter, in issue order. -/
theorem recorderRun_spec (evs : List (RecorderEvent α)) (s : RecorderState α) :
    (recorderRun s evs).1.nextChunkIndex =
        s.nextChunkIndex + (recorderRun s evs).2.length ∧
      (recorderRun s evs).2.map Prod.fst =
        List.range' s.nextChunkIndex (recorderRun s evs).2.length := by
  induction evs generalizing s with
  | nil => simp [recorderRun]
  | cons ev evs ih =>
      rcases ev with sample | force
      · simp only [recorderRun, recorderStep]
        obtain ⟨ih1, ih2⟩ :=
          ih { s with sampleBuffer := s.sampleBuffer ++ [sample] }
        exact ⟨ih1, ih2⟩
      · simp only [recorderRun, recorderStep, flushBufferedSamples]
        cases hsid : s.sessionId with
        | none =>
            dsimp only
            obtain ⟨ih1, ih2⟩ := ih s
            exact ⟨by simpa using ih1, by simpa using ih2⟩
        | some sid =>
            rcases hf : flushLoop force s with ⟨s1, ap⟩
            obtain ⟨f1, f2, f3⟩ := flushLoop_spec force s
            rw [hf] at f1 f2 f3
            obtain ⟨ih1, ih2⟩ := ih s1
            rcases hr : recorderRun s1 evs with ⟨s2, rest⟩
            rw [hr] at ih1 ih2
            simp only [hf, hr]
            dsimp only at f1 f2 f3 ih1 ih2 ⊢
            constructor
            · rw [List.length_append]
              omega
            · rw [List.map_append, f2, ih2, f1, List.length_append]
              have happ := List.range'_append s.nextChunkIndex ap.length
                rest.length 1
              simp only [one_mul] at happ
              rw [happ, Nat.add_comm rest.length ap.length]

/-- C3: for any interleaving of sample pushes, non-final flushes and force
flushes — executed sequentially, as the single `flushChain` promise queue
serializes them — the chunk indices assigned over one recording session, with
every append succeeding, are exactly `0..k-1` in strictly increasing order
with no gaps or repeats, where `k` is the final value of the strictly
incrementing counter. -/
theorem recorder_chunk_indices (sid : ℕ)
    (evs : List (RecorderEvent α)) :
    (recorderRun (initialRecorder sid) evs).2.map Prod.fst =
      List.range (recorderRun (initialRecorder sid) evs).1.nextChunkIndex := by
  obtain ⟨h1, h2⟩ := recorderRun_spec evs (initialRecorder sid : RecorderState α)
  have h0 : (initialRecorder sid : RecorderState α).nextChunkIndex = 0 := rfl
  rw [h2, List.range_eq_range', h0]
  rw [h0, Nat.zero_add] at h1
  rw [h1]

/-- C2: on an eligible dispatch tick (running, unpaused, incomplete, inside a
segment, with a dispatch second computed), the ERG write is skipped entirely
when the computed target equals the last successfully acknowledged target, and
`lastSentTargetRef` is updated only when the write resolves successfully:
after a failed write the guard is unchanged, so the same unacknowledged
target is attempted again at the next eligible tick instead of being silently
dropped. -/
theorem dispatch_idempotence_and_retry (workout : WorkoutDefinition)
    (ftp rampInt : ℚ) (p c hr : Option ℚ) (writeOk : Bool) (s : EngineState)
    (hrun : s.isRunning = true) (hpause : s.isPaused = false)
    (hcomp : s.isCompleted = false)
    (hseg : 0 ≤ getSegmentIndexForElapsed workout s.elapsedSeconds)
    (hds : (getDispatchSecond
        (workout.segments.getD
          (getSegmentIndexForElapsed workout s.elapsedSeconds).toNat
          placeholderSegment)
        (s.elapsedSeconds -
          (workout.segments.getD
            (getSegmentIndexForElapsed workout s.elapsedSeconds).toNat
            placeholderSegment).startSecond)
        rampInt).isSome = true) :
    (s.lastSentTarget = some (getSegmentTargetWatts
        (workout.segments.getD
          (getSegmentIndexForElapsed workout s.elapsedSeconds).toNat
          placeholderSegment)
        ((getDispatchSecond
          (workout.segments.getD
            (getSegmentIndexForElapsed workout s.elapsedSeconds).toNat
            placeholderSegment)
          (s.elapsedSeconds -
            (workout.segments.getD
              (getSegmentIndexForElapsed workout s.elapsedSeconds).toNat
              placeholderSegment).startSecond)
          rampInt).getD 0) ftp) →
      (commitEffects workout ftp rampInt p c hr writeOk s).dispatchedTargets =
          s.dispatchedTargets ∧
        (commitEffects workout ftp rampInt p c hr writeOk s).lastSentTarget =
          s.lastSentTarget) ∧
    (s.lastSentTarget ≠ some (getSegmentTargetWatts
        (workout.segments.getD
          (getSegmentIndexForElapsed workout s.elapsedSeconds).toNat
          placeholderSegment)
        ((getDispatchSecond
          (workout.segments.getD
            (getSegmentIndexForElapsed workout s.elapsedSeconds).toNat
            placeholderSegment)
          (s.elapsedSeconds -
            (workout.segments.getD
              (getSegmentIndexForElapsed workout s.elapsedSeconds).toNat
              placeholderSegment).startSecond)
          rampInt).getD 0) ftp) →
      (commitEffects workout ftp rampInt p c hr writeOk s).dispatchedTargets =
          s.dispatchedTargets ++ [getSegmentTargetWatts
            (workout.segments.getD
              (getSegmentIndexForElapsed workout s.elapsedSeconds).toNat
              placeholderSegment)
            ((getDispatchSecond
              (workout.segments.getD
                (getSegmentIndexForElapsed workout s.elapsedSeconds).toNat
                placeholderSegment)
              (s.elapsedSeconds -
                (workout.segments.getD
                  (getSegmentIndexForElapsed workout s.elapsedSeconds).toNat
                  placeholderSegment).startSecond)
              rampInt).getD 0) ftp] ∧
        (commitEffects workout ftp rampInt p c hr writeOk s).lastSentTarget =
          (if writeOk then some (getSegmentTargetWatts
            (workout.segments.getD
              (getSegmentIndexForElapsed workout s.elapsedSeconds).toNat
              placeholderSegment)
            ((getDispatchSecond
              (workout.segments.getD
                (getSegmentIndexForElapsed workout s.elapsedSeconds).toNat
                placeholderSegment)
              (s.elapsedSeconds -
                (workout.segments.getD
                  (getSegmentIndexForElapsed workout s.elapsedSeconds).toNat
                  placeholderSegment).startSecond)
              rampInt).getD 0) ftp)
           else s.lastSentTarget)) := by
  constructor
  · intro heq
    constructor
    · simp only [commitEffects]
      rw [if_neg]
      intro hcontra
      exact hcontra.2 heq
    · simp only [commitEffects]
      rw [if_neg]
      intro hcontra
      exact hcontra.1.2 heq
  · intro hne
    constructor
    · simp only [commitEffects]
      rw [if_pos]
      exact ⟨⟨⟨hrun, by simp [hpause], by simp [hcomp], hseg⟩, hds⟩, hne⟩
    · simp only [commitEffects]
      cases writeOk with
      | false =>
          rw [if_neg, if_neg]
          · simp
          · intro hcontra
            exact Bool.false_ne_true hcontra.2
      | true =>
          rw [if_pos, if_pos]
          · trivial
          · exact ⟨⟨⟨⟨hrun, by simp [hpause], by simp [hcomp], hseg⟩, hds⟩, hne⟩,
              rfl⟩

/-- A three-second single-segment steady workout at 100% FTP. -/
def steadySegment3 : WorkoutSegment :=
  { id := "steady-3s", kind := SegmentKind.steady, durationSeconds := 3,
    ftpLow := 1, ftpHigh := 1, startSecond := 0 }

def steadyWorkout3 : WorkoutDefinition :=
  { segments := [steadySegment3], totalDurationSeconds := 3 }

/-- C2 witness: at second 0 of the steady workout with no target acknowledged
yet, the engine attempts the 200 W write, and because the write fails the
guard stays `none`. -/
theorem dispatch_idempotence_and_retry_witness :
    (commitEffects steadyWorkout3 200 15 none none none false
        startState).dispatchedTargets = [200] ∧
      (commitEffects steadyWorkout3 200 15 none none none false
        startState).lastSentTarget = none := by
  have ht : getSegmentTargetWatts
      (steadyWorkout3.segments.getD
        (getSegmentIndexForElapsed steadyWorkout3
          startState.elapsedSeconds).toNat placeholderSegment)
      ((getDispatchSecond
        (steadyWorkout3.segments.getD
          (getSegmentIndexForElapsed steadyWorkout3
            startState.elapsedSeconds).toNat placeholderSegment)
        (startState.elapsedSeconds -
          (steadyWorkout3.segments.getD
            (getSegmentIndexForElapsed steadyWorkout3
              startState.elapsedSeconds).toNat placeholderSegment).startSecond)
        15).getD 0) 200 = 200 := by
    rw [show (getDispatchSecond
        (steadyWorkout3.segments.getD
          (getSegmentIndexForElapsed steadyWorkout3
            startState.elapsedSeconds).toNat placeholderSegment)
        (startState.elapsedSeconds -
          (steadyWorkout3.segments.getD
            (getSegmentIndexForElapsed steadyWorkout3
              startState.elapsedSeconds).toNat placeholderSegment).startSecond)
        15).getD 0 = 0 by decide]
    rw [getSegmentTargetWatts]
    rw [if_neg (by simp [steadyWorkout3, steadySegment3, startState,
      placeholderSegment, getSegmentIndexForElapsed, segmentScan])]
    rw [if_pos (by norm_num)]
    rw [show (steadyWorkout3.segments.getD
        (getSegmentIndexForElapsed steadyWorkout3
          startState.elapsedSeconds).toNat placeholderSegment).ftpLow = 1 from
      rfl]
    rw [jsRound_eq_floor]
    norm_num
  obtain ⟨h1, h2⟩ :=
    (dispatch_idempotence_and_retry steadyWorkout3 200 15 none none none false
      startState rfl rfl rfl (by decide) (by decide)).2 (by simp [startState])
  rw [ht] at h1 h2
  refine ⟨by simpa [startState] using h1, by simpa [startState] using h2⟩

/-- An effect flush strictly before completion: flags unchanged, one sample
appended for the current second, watermark advanced. -/
theorem commitEffects_running (workout : WorkoutDefinition) (ftp r : ℚ)
    (p c hr : Option ℚ) (wOk : Bool) (s : EngineState)
    (hlt : s.elapsedSeconds < workout.totalDurationSeconds)
    (hrun : s.isRunning = true) (hpause : s.isPaused = false)
    (hcomp : s.isCompleted = false)
    (hsamp : (s.elapsedSeconds : ℤ) ≠ s.lastSampleElapsed) :
    (commitEffects workout ftp r p c hr wOk s).isRunning = true ∧
      (commitEffects workout ftp r p c hr wOk s).isPaused = false ∧
      (commitEffects workout ftp r p c hr wOk s).isCompleted = false ∧
      (commitEffects workout ftp r p c hr wOk s).elapsedSeconds =
        s.elapsedSeconds ∧
      (commitEffects workout ftp r p c hr wOk s).lastSampleElapsed =
        (s.elapsedSeconds : ℤ) ∧
      (commitEffects workout ftp r p c hr wOk s).samples.map
          (fun x => x.elapsedSeconds) =
        s.samples.map (fun x => x.elapsedSeconds) ++ [s.elapsedSeconds] := by
  have hnc : ¬(¬s.isCompleted = true ∧
      s.elapsedSeconds ≥ workout.totalDurationSeconds) := by
    intro hcontra
    omega
  have hs : s.isRunning = true ∧ ¬s.isPaused = true ∧ ¬s.isCompleted = true ∧
      (s.elapsedSeconds : ℤ) ≠ s.lastSampleElapsed :=
    ⟨hrun, by simp [hpause], by simp [hcomp], hsamp⟩
  refine ⟨?_, ?_, ?_, ?_, ?_, ?_⟩ <;> simp only [commitEffects]
  · rw [if_neg hnc]
    exact hrun
  · rw [if_neg hnc]
    exact hpause
  · rw [if_neg hnc]
    exact hcomp
  · rw [if_neg hnc]
  · rw [if_pos hs]
  · rw [if_pos hs, List.map_append]
    rfl

/-- The completion flush: the completion effect flips the phase flags and
clamps elapsed, while the sampling effect, reading the same snapshot, still
records a sample for the final second. -/
theorem commitEffects_complete (workout : WorkoutDefinition) (ftp r : ℚ)
    (p c hr : Option ℚ) (wOk : Bool) (s : EngineState)
    (hge : s.elapsedSeconds ≥ workout.totalDurationSeconds)
    (hrun : s.isRunning = true) (hpause : s.isPaused = false)
    (hcomp : s.isCompleted = false)
    (hsamp : (s.elapsedSeconds : ℤ) ≠ s.lastSampleElapsed) :
    (commitEffects workout ftp r p c hr wOk s).isRunning = false ∧
      (commitEffects workout ftp r p c hr wOk s).isPaused = false ∧
      (commitEffects workout ftp r p c hr wOk s).isCompleted = true ∧
      (commitEffects workout ftp r p c hr wOk s).elapsedSeconds =
        workout.totalDurationSeconds ∧
      (commitEffects workout ftp r p c hr wOk s).samples.map
          (fun x => x.elapsedSeconds) =
        s.samples.map (fun x => x.elapsedSeconds) ++ [s.elapsedSeconds] := by
  have hcf : (¬s.isCompleted = true ∧
      s.elapsedSeconds ≥ workout.totalDurationSeconds) := ⟨by simp [hcomp], hge⟩
  have hs : s.isRunning = true ∧ ¬s.isPaused = true ∧ ¬s.isCompleted = true ∧
      (s.elapsedSeconds : ℤ) ≠ s.lastSampleElapsed :=
    ⟨hrun, by simp [hpause], by simp [hcomp], hsamp⟩
  refine ⟨?_, ?_, ?_, ?_, ?_⟩ <;> simp only [commitEffects]
  · rw [if_pos hcf]
  · rw [if_pos hcf]
  · rw [if_pos hcf]
  · rw [if_pos hcf]
  · rw [if_pos hs, List.map_append]
    rfl

/-- After completion the interval is gone and every effect body returns
early, so the state is a fixed point. -/
theorem commitEffects_fixed (workout : WorkoutDefinition) (ftp r : ℚ)
    (p c hr : Option ℚ) (wOk : Bool) (s : EngineState)
    (hcomp : s.isCompleted = true) (hrun : s.isRunning = false) :
    commitEffects workout ftp r p c hr wOk s = s := by
  cases s with
  | mk run paused comp elapsed target lastSent lastSamp samples disp =>
      simp only at hcomp hrun
      subst hcomp
      subst hrun
      simp [commitEffects]

theorem tick_fixed (workout : WorkoutDefinition) (s : EngineState)
    (hrun : s.isRunning = false) :
    tick workout s = s := by
  simp [tick, hrun]

theorem tick_running (workout : WorkoutDefinition) (s : EngineState)
    (hlt : s.elapsedSeconds < workout.totalDurationSeconds)
    (hrun : s.isRunning = true) (hpause : s.isPaused = false)
    (hcomp : s.isCompleted = false) :
    tick workout s = { s with elapsedSeconds := s.elapsedSeconds + 1 } := by
  rw [tick, if_pos ⟨hrun, by simp [hpause], by simp [hcomp]⟩, if_neg (by omega)]

/-- While the workout still has seconds to run, each second of the run keeps
the engine running with the clock at `k`, and the recorded samples are
exactly one per elapsed second `0..k`. -/
theorem engineRun_running (workout : WorkoutDefinition) (ftp r : ℚ)
    (p c hr : Option ℚ) (wOk : Bool) :
    ∀ k, k < workout.totalDurationSeconds →
      (engineRun workout ftp r p c hr wOk k).isRunning = true ∧
        (engineRun workout ftp r p c hr wOk k).isPaused = false ∧
        (engineRun workout ftp r p c hr wOk k).isCompleted = false ∧
        (engineRun workout ftp r p c hr wOk k).elapsedSeconds = k ∧
        (engineRun workout ftp r p c hr wOk k).lastSampleElapsed = (k : ℤ) ∧
        (engineRun workout ftp r p c hr wOk k).samples.map
            (fun x => x.elapsedSeconds) =
          List.range (k + 1) := by
  intro k
  induction k with
  | zero =>
      intro hk
      obtain ⟨e1, e2, e3, e4, e5, e6⟩ :=
        commitEffects_running workout ftp r p c hr wOk startState
          (by simpa [startState] using hk) rfl rfl rfl (by simp [startState])
      exact ⟨e1, e2, e3, e4, e5, by simpa [startState] using e6⟩
  | succ m ih =>
      intro hk
      obtain ⟨i1, i2, i3, i4, i5, i6⟩ := ih (by omega)
      have hlt : (engineRun workout ftp r p c hr wOk m).elapsedSeconds <
          workout.totalDurationSeconds := by
        rw [i4]
        omega
      have htick := tick_running workout _ hlt i1 i2 i3
      rw [i4] at htick
      obtain ⟨e1, e2, e3, e4, e5, e6⟩ :=
        commitEffects_running workout ftp r p c hr wOk
          { engineRun workout ftp r p c hr wOk m with elapsedSeconds := m + 1 }
          (by
            show m + 1 < workout.totalDurationSeconds
            omega)
          i1 i2 i3
          (by
            have hls : ({ engineRun workout ftp r p c hr wOk m with
                elapsedSeconds := m + 1 } : EngineState).lastSampleElapsed =
                (m : ℤ) := i5
            rw [hls]
            show ((m + 1 : ℕ) : ℤ) ≠ (m : ℤ)
            omega)
      simp only [engineRun]
      rw [htick]
      refine ⟨e1, e2, e3, e4, e5, ?_⟩
      rw [e6, List.range_succ]
      rw [show ({ engineRun workout ftp r p c hr wOk m with
          elapsedSeconds := m + 1 } : EngineState).samples.map
          (fun x => x.elapsedSeconds) = List.range (m + 1) from i6]

/-- At second `N = totalDurationSeconds` the run completes, and the recorded
samples cover exactly the elapsed seconds `0..N`. -/
theorem engineRun_at_total (workout : WorkoutDefinition) (ftp r : ℚ)
    (p c hr : Option ℚ) (wOk : Bool) :
    (engineRun workout ftp r p c hr wOk
        workout.totalDurationSeconds).isRunning = false ∧
      (engineRun workout ftp r p c hr wOk
        workout.totalDurationSeconds).isPaused = false ∧
      (engineRun workout ftp r p c hr wOk
        workout.totalDurationSeconds).isCompleted = true ∧
      (engineRun workout ftp r p c hr wOk
        workout.totalDurationSeconds).samples.map (fun x => x.elapsedSeconds) =
        List.range (workout.totalDurationSeconds + 1) := by
  cases hN : workout.totalDurationSeconds with
  | zero =>
      obtain ⟨e1, e2, e3, e4, e5⟩ :=
        commitEffects_complete workout ftp r p c hr wOk startState
          (by simp [startState, hN]) rfl rfl rfl (by simp [startState])
      simp only [engineRun]
      exact ⟨e1, e2, e3, by simpa [startState] using e5⟩
  | succ m =>
      obtain ⟨i1, i2, i3, i4, i5, i6⟩ :=
        engineRun_running workout ftp r p c hr wOk m (by omega)
      have hlt : (engineRun workout ftp r p c hr wOk m).elapsedSeconds <
          workout.totalDurationSeconds := by
        rw [i4]
        omega
      have htick := tick_running workout _ hlt i1 i2 i3
      rw [i4] at htick
      obtain ⟨e1, e2, e3, e4, e5⟩ :=
        commitEffects_complete workout ftp r p c hr wOk
          { engineRun workout ftp r p c hr wOk m with elapsedSeconds := m + 1 }
          (by
            show m + 1 ≥ workout.totalDurationSeconds
            omega)
          i1 i2 i3
          (by
            have hls : ({ engineRun workout ftp r p c hr wOk m with
                elapsedSeconds := m + 1 } : EngineState).lastSampleElapsed =
                (m : ℤ) := i5
            rw [hls]
            show ((m + 1 : ℕ) : ℤ) ≠ (m : ℤ)
            omega)
      simp only [engineRun]
      rw [htick]
      refine ⟨e1, e2, e3, ?_⟩
      rw [e5, List.range_succ]
      rw [show ({ engineRun workout ftp r p c hr wOk m with
          elapsedSeconds := m + 1 } : EngineState).samples.map
          (fun x => x.elapsedSeconds) = List.range (m + 1) from i6]

/-- Every second after completion is a no-op: the state reached at
`totalDurationSeconds` is final. -/
theorem engineRun_stable (workout : WorkoutDefinition) (ftp r : ℚ)
    (p c hr : Option ℚ) (wOk : Bool) (j : ℕ) :
    engineRun workout ftp r p c hr wOk (workout.totalDurationSeconds + j) =
      engineRun workout ftp r p c hr wOk workout.totalDurationSeconds := by
  induction j with
  | zero => rfl
  | succ i ih =>
      obtain ⟨f1, f2, f3, f4⟩ := engineRun_at_total workout ftp r p c hr wOk
      show commitEffects workout ftp r p c hr wOk
          (tick workout
            (engineRun workout ftp r p c hr wOk
              (workout.totalDurationSeconds + i))) = _
      rw [ih, tick_fixed workout _ f1, commitEffects_fixed workout ftp r p c hr
        wOk _ f3 f1]

/-- C1 counterexample: the three-second steady workout, started and run to
natural completion with no pause, completes but records 4 samples (elapsed
seconds 0, 1, 2 and 3), not the 3 the claim requires: the sampling effect
fires once more in the same commit in which the completion effect flips the
flags, because both read the same pre-completion snapshot. -/
theorem sample_count_counterexample :
    (engineRun steadyWorkout3 200 15 (some 150) none none true
        steadyWorkout3.totalDurationSeconds).isCompleted = true ∧
      (engineRun steadyWorkout3 200 15 (some 150) none none true
          steadyWorkout3.totalDurationSeconds).samples.length = 4 ∧
      ¬((engineRun steadyWorkout3 200 15 (some 150) none none true
          steadyWorkout3.totalDurationSeconds).samples.length =
        steadyWorkout3.totalDurationSeconds) := by
  refine ⟨by decide, by decide, by decide⟩

/-- C1 (amended: `N + 1` samples rather than `N`): a workout of total duration
`N` seconds that is started, runs to natural completion and is never paused
records exactly one telemetry sample per elapsed-second value `0..N`, in
order and with no duplicates — `N + 1` samples in total, the extra one being
the final-second sample recorded in the completion commit. -/
theorem workout_sample_per_second (workout : WorkoutDefinition) (ftp r : ℚ)
    (p c hr : Option ℚ) (wOk : Bool) :
    (engineRun workout ftp r p c hr wOk
        workout.totalDurationSeconds).isCompleted = true ∧
      (engineRun workout ftp r p c hr wOk
          workout.totalDurationSeconds).samples.map (fun x => x.elapsedSeconds) =
        List.range (workout.totalDurationSeconds + 1) ∧
      (engineRun workout ftp r p c hr wOk
          workout.totalDurationSeconds).samples.length =
        workout.totalDurationSeconds + 1 ∧
      ((engineRun workout ftp r p c hr wOk
          workout.totalDurationSeconds).samples.map
        (fun x => x.elapsedSeconds)).Nodup := by
  obtain ⟨f1, f2, f3, f4⟩ := engineRun_at_total workout ftp r p c hr wOk
  refine ⟨f3, f4, ?_, ?_⟩
  · have hlen := congrArg List.length f4
    simpa using hlen
  · rw [f4]
    exact List.nodup_range _

end JustRide
